import Mathlib

/-
Verification of the retrieval-augmented chat pipeline of pdfizzai-back.

The definitions below are shallow embeddings of the TypeScript source:
  - src/src/services/chat.service.ts   (ChatService: sendMessage, integrity check/recovery)
  - src/unnamed/part_006               (AIService: categorizer, search, stream, filters)
  - src/src/services/seed.service.ts   (PaymentService.increaseMessageUsage)
  - src/src/entities/*                 (ChatSession, ChatMessage, ExtractedContent)
External collaborators (OpenAI, Gemini, Pinecone, the SQL store) appear as explicit
parameters or outcome values; everything the repository's own code computes is
translated directly. The file is organised as all definitions first, then all
theorems.
-/

namespace Pdfizz

/- ===========================  DEFINITIONS  =============================== -/

/-- Message roles, from the MessageRole enum of the chat-message entity
    (src/unnamed/part_015: USER, MODEL, DEVELOPER, ASSISTANT). -/
inductive MessageRole
  | user
  | model
  | developer
  | assistant
deriving DecidableEq, Repr

/-- One persisted ExtractedContent row (src/unnamed/part_015 entity), with the
    columns the claims read (the entity also carries id, userId, sessionId and the
    relation fields). The entity has NO rawRefId column: the reference number
    stamped in memory at chat.service.ts 364-373 is not part of the persisted
    record. -/
structure ExtractedContentRecord where
  fileId : String
  fileName : String
  text : String
deriving DecidableEq, Repr

/-- file.service.ts 460-485 (saveExtractedContent): persists each extracted passage
    as a row with sessionId, session, fileId, fileName, userId and text only; the
    rawRefId stamped on the in-memory objects by chat.service.ts 364-373 is not
    among the saved columns (and the entity has no such column), so the assigned
    reference number is discarded at persistence. -/
def saveExtractedContent (stamped : List (Nat × ExtractedContentRecord)) :
    List ExtractedContentRecord :=
  stamped.map Prod.snd

/-- One persisted chat message (chat-message entity, src/unnamed/part_015), with the
    fields the claims are about. `conversationSummary` is the empty string when no
    summary is attached (chat.service.ts line 664 stores `conversationSummary || ''`).
    `created_at` is epoch milliseconds. -/
structure ChatMsg where
  id : String
  role : MessageRole
  content : String
  conversationSummary : String
  created_at : Nat
  extractedContents : List ExtractedContentRecord
deriving DecidableEq, Repr

/-- chat.service.ts 364-373 (for C1): the map over `resultsGenericQueries` that
    increments the local counter once per result and stamps the incremented value
    as `rawRefId`. Returns the stamped results together with the final counter
    value that line 375 writes back to the session. -/
def assignRawRefIds (numRawReferences : Nat) (results : List String) :
    List (Nat × String) × Nat :=
  match results with
  | [] => ([], numRawReferences)
  | r :: rest =>
      let refId := numRawReferences + 1
      let (tail, finalCounter) := assignRawRefIds refId rest
      ((refId, r) :: tail, finalCounter)

/-- The reference numbers a session hands out over its lifetime: turns run one after
    the other, each starting from the counter value the previous turn persisted
    (chat.service.ts 362 reads it, 375-377 writes it back). Within one turn the
    results of all concurrently executed retrieval batches have already been
    awaited and flattened into one list, which the single sequential map modelled
    by `assignRawRefIds` stamps. -/
def sessionRawRefIds (numRawReferences : Nat) (turns : List (List String)) : List Nat :=
  match turns with
  | [] => []
  | t :: ts =>
      let (assigned, nextCounter) := assignRawRefIds numRawReferences t
      assigned.map Prod.fst ++ sessionRawRefIds nextCounter ts

/-- Result shape of userQueryCategorizer (part_006 372-375). -/
structure CategorizedQueries where
  specific : List String
  generic : List String
deriving DecidableEq, Repr

/-- Outcome of the external classification call of part_006 384-451:
    `failure` covers a thrown API error, a JSON parse error, and a null
    `output_parsed` (whose field access throws and is caught by the outer catch);
    `parsed` carries the two optional fields of the parsed structure. -/
inductive ClassifyOutcome
  | failure
  | parsed (specific : Option (List String)) (generic : Option (List String))
deriving DecidableEq, Repr

/-- part_006 372-500: userQueryCategorizer. The whole body runs inside try/catch,
    so the function never throws to its caller; it falls back to the original
    query as the single generic entry when the call fails (lines 491-499), when
    the parsed structure misses a field (469-475), or when both lists are empty
    (482-488). -/
def userQueryCategorizer (query : String) (outcome : ClassifyOutcome) :
    CategorizedQueries :=
  match outcome with
  | .failure => ⟨[], [query]⟩
  | .parsed none _ => ⟨[], [query]⟩
  | .parsed (some _) none => ⟨[], [query]⟩
  | .parsed (some s) (some g) =>
      if s.isEmpty && g.isEmpty then ⟨[], [query]⟩ else ⟨s, g⟩

/-- Model of `[...new Set(list)]` (for C10): a JavaScript Set keeps the first
    occurrence of each element in insertion order. -/
def jsSetDedupAux (seen : List String) : List String → List String
  | [] => []
  | x :: xs =>
      if x ∈ seen then jsSetDedupAux seen xs
      else x :: jsSetDedupAux (x :: seen) xs

def jsSetDedup (l : List String) : List String :=
  jsSetDedupAux [] l

/-- chat.service.ts 168-179 and 747-752: the stored contextFileIds after a
    successful sendMessage call. The merged array is computed up front from the
    previously stored ids and the request's fileIds; at the end of the turn it is
    written back only when non-empty (when it is empty the previous value, itself
    necessarily empty, is left in place). -/
def updateContextFileIds (stored requested : List String) : List String :=
  let merged := jsSetDedup (stored ++ requested)
  if merged.length > 0 then merged else stored

/-- chat.service.ts 922-935: for every adjacent pair of messages with the same role,
    a user-role pair contributes its first message to the orphan list (an
    assistant-role pair only contributes an issue string). -/
def consecutiveOrphans : List ChatMsg → List ChatMsg
  | m1 :: m2 :: rest =>
      (if m1.role = m2.role ∧ m1.role = .user then [m1] else []) ++
        consecutiveOrphans (m2 :: rest)
  | _ => []

/-- chat.service.ts 937-942: a final message with role user is orphaned. -/
def trailingOrphans (messages : List ChatMsg) : List ChatMsg :=
  match messages.getLast? with
  | some m => if m.role = .user then [m] else []
  | none => []

/-- chat.service.ts 910-962: the orphanedMessages list checkConversationIntegrity
    returns. -/
def orphanedMessages (messages : List ChatMsg) : List ChatMsg :=
  consecutiveOrphans messages ++ trailingOrphans messages

/-- Subscription usage row (subscription-usage entity), with the counter the claims
    are about. -/
structure SubscriptionUsage where
  messagesUsed : Nat
deriving DecidableEq, Repr

/-- seed.service.ts 459-519 (PaymentService.increaseMessageUsage): loads the usage
    row and writes messagesUsed + 1 back. When the transactional entity manager is
    supplied — as chat.service.ts 705 does — both operations run inside the
    caller's transaction. -/
def increaseMessageUsage (usage : SubscriptionUsage) : SubscriptionUsage :=
  { messagesUsed := usage.messagesUsed + 1 }

/-- The persisted conversation-side state a sendMessage turn mutates: the session's
    message list and the user's subscription-usage row. -/
structure ConversationState where
  messages : List ChatMsg
  usage : SubscriptionUsage
deriving DecidableEq, Repr

/-- chat.service.ts 695-713: `chatMessageRepository.manager.transaction` saves the
    assistant message and, when a usage row was found (line 703), increments it via
    the same transactional entity manager. A database transaction applies both
    writes on commit and none of them on failure, in which case the error is
    rethrown (line 737). -/
def assistantMessageTransaction (txCommits : Bool) (hasUsageRecord : Bool)
    (aiMessage : ChatMsg) (st : ConversationState) : Except String ConversationState :=
  if txCommits then
    .ok { messages := st.messages ++ [aiMessage],
          usage := if hasUsageRecord then increaseMessageUsage st.usage else st.usage }
  else
    .error "transaction failed"

/-- chat.service.ts 437-453 then 686-738: the user message is saved first and
    independently; the assistant message and the usage increment then run in one
    transaction. When that transaction fails the turn aborts (the error is
    rethrown at line 737) and the already-persisted user message stays behind. -/
def sendMessagePersistence (txCommits : Bool) (hasUsageRecord : Bool)
    (userMessage aiMessage : ChatMsg) (st : ConversationState) : ConversationState :=
  let afterUser : ConversationState := { st with messages := st.messages ++ [userMessage] }
  match assistantMessageTransaction txCommits hasUsageRecord aiMessage afterUser with
  | .ok committed => committed
  | .error _ => afterUser

/-- chat.service.ts 1008-1016: the system-recovered assistant message created for an
    orphan. Its id is database-generated (modelled as a parameter), its content is
    the generated response plus the recovery tag, and its creation date is the
    orphan's plus 1000 milliseconds. -/
def recoveryMessageFor (generatedResponse : String) (newId : String)
    (orphan : ChatMsg) : ChatMsg :=
  { id := newId
    role := .assistant
    content := generatedResponse ++
      "\n\n*[This response was automatically generated during conversation recovery.]*"
    conversationSummary := "Recovery response"
    created_at := orphan.created_at + 1000
    extractedContents := orphan.extractedContents }

/-- chat.service.ts 968-1035 (recoverConversationIntegrity): re-runs the integrity
    check, then for every orphaned message generates and saves one recovery
    assistant message; the existing rows are only read, never rewritten or deleted,
    so the store afterwards is the old messages plus the new recovery messages. -/
def recoverConversationIntegrity (generatedResponse : String) (newId : String)
    (messages : List ChatMsg) : List ChatMsg :=
  messages ++ (orphanedMessages messages).map (recoveryMessageFor generatedResponse newId)

/-- Externally observable events of one sendMessage turn that reaches generation
    (for C3 and C4). -/
inductive StreamEvent
  | persistedUserMessage (id : String)
  | userMessageIdFragment (id : String)
  | chunkRequested (index : Nat)
  | chunkForwarded (text : String)
  | persistedAssistantMessage (content : String)
  | aiMessageIdFragment (id : String)
deriving DecidableEq, Repr

/-- chat.service.ts 504-520: the streaming loop. For each chunk the upstream
    generator emits, the loop increments chunkIndex, appends the chunk to the
    accumulator `streamedContent`, and forwards the chunk to the caller unchanged.
    Returns the loop's events and the final accumulator. -/
def streamingLoop (streamedContent : String) (chunkIndex : Nat) :
    List String → List StreamEvent × String
  | [] => ([], streamedContent)
  | chunk :: rest =>
      let acc := streamedContent ++ chunk
      let (events, finalContent) := streamingLoop acc (chunkIndex + 1) rest
      (.chunkRequested (chunkIndex + 1) :: .chunkForwarded chunk :: events, finalContent)

/-- The event trace of a successful sendMessage turn, in the order the code runs:
    save the user message (line 438), yield the [USER_MESSAGE_ID] fragment (456),
    stream and forward the chunks while accumulating them (504-520), save the
    assistant message whose content is the final accumulator (553, 663, 699), and
    yield the [AI_MESSAGE_ID] fragment (741). The error path of lines 180-193
    aborts before any of these events and is outside the claims' scope. -/
def sendMessageEvents (userMessageId aiMessageId : String) (chunks : List String) :
    List StreamEvent :=
  let (loopEvents, finalContent) := streamingLoop "" 0 chunks
  .persistedUserMessage userMessageId :: .userMessageIdFragment userMessageId ::
    (loopEvents ++
      [.persistedAssistantMessage finalContent, .aiMessageIdFragment aiMessageId])

/-- Events belonging to the generation stream (requesting a chunk from the
    generation service, or forwarding one to the caller). -/
def isChunkEvent : StreamEvent → Bool
  | .chunkRequested _ => true
  | .chunkForwarded _ => true
  | _ => false

/-- The chunks a trace forwards to the caller, in order. -/
def forwardedChunks (events : List StreamEvent) : List String :=
  events.filterMap (fun e =>
    match e with
    | .chunkForwarded s => some s
    | _ => none)

/-- Concatenation of a chunk list, in emission order. -/
def concatChunks : List String → String
  | [] => ""
  | c :: rest => c ++ concatChunks rest

/-- Split a character list at the first occurrence of `tag` (for C5): the
    characters before the occurrence and the characters after it, or none when
    `tag` does not occur. -/
def splitAtTag (tag : List Char) : List Char → Option (List Char × List Char)
  | [] => if tag.isPrefixOf ([] : List Char) then some ([], []) else none
  | c :: rest =>
      if tag.isPrefixOf (c :: rest) then some ([], (c :: rest).drop tag.length)
      else (splitAtTag tag rest).map (fun p => (c :: p.1, p.2))

def refOpenTag : List Char := "[REF]".data

def refCloseTag : List Char := "[/REF]".data

/-- chat.service.ts 523-524: the global non-greedy scan. Each step finds the first
    opening tag, then the first closing tag after it; the body between them is one
    match group, and scanning resumes after the closing tag. The fuel argument
    bounds the number of matches by the text length. -/
def refMatchBodiesFuel : Nat → List Char → List (List Char)
  | 0, _ => []
  | fuel + 1, s =>
      match splitAtTag refOpenTag s with
      | none => []
      | some (_, afterOpen) =>
          match splitAtTag refCloseTag afterOpen with
          | none => []
          | some (body, afterClose) => body :: refMatchBodiesFuel fuel afterClose

def refMatchBodies (s : List Char) : List (List Char) :=
  refMatchBodiesFuel (s.length + 1) s

/-- Case-insensitive prefix test, character by character. -/
def isPrefixOfCI : List Char → List Char → Bool
  | [], _ => true
  | _ :: _, [] => false
  | a :: as, b :: bs => (a.toLower == b.toLower) && isPrefixOfCI as bs

/-- Split at the first case-insensitive occurrence of `tag`, keeping the original
    characters of the part before it. -/
def splitAtTagCI (tag : List Char) : List Char → Option (List Char × List Char)
  | [] => if isPrefixOfCI tag ([] : List Char) then some ([], []) else none
  | c :: rest =>
      if isPrefixOfCI tag (c :: rest) then some ([], (c :: rest).drop tag.length)
      else (splitAtTagCI tag rest).map (fun p => (c :: p.1, p.2))

/-- chat.service.ts 533: the inner re-match of each full match against
    /\[REF\]([\s\S]*?)\[\/REF\]/i. The full match is "[REF]" ++ body ++ "[/REF]"
    with no case-sensitive closing tag inside body; the case-insensitive inner
    regex anchors at the opening tag at position 0 and its non-greedy group stops
    at the first case-insensitive closing tag, so the inner group is the outer
    body truncated at its first case-insensitive "[/REF]" occurrence, or the whole
    body when none occurs (the appended closing tag then terminates the match;
    "[/REF]" has no nontrivial border, so no occurrence straddles the boundary). -/
def innerRefBody (body : List Char) : List Char :=
  match splitAtTagCI refCloseTag body with
  | some (before, _) => before
  | none => body

/-- Model of JavaScript String.prototype.trim. -/
def jsTrim (s : List Char) : List Char :=
  ((s.dropWhile Char.isWhitespace).reverse.dropWhile Char.isWhitespace).reverse

/-- Model of parseInt(s, 10) (chat.service.ts 574): skip leading whitespace, accept
    an optional sign, read the leading decimal digits; NaN — here `none` — when no
    digit follows. -/
def jsParseInt (s : String) : Option Int :=
  let afterSpace := s.data.dropWhile Char.isWhitespace
  let signed : Bool × List Char :=
    match afterSpace with
    | '-' :: r => (true, r)
    | '+' :: r => (false, r)
    | r => (false, r)
  let digits := signed.2.takeWhile Char.isDigit
  if digits.isEmpty then none
  else
    let magnitude : Nat := digits.foldl (fun acc c => acc * 10 + (c.toNat - '0'.toNat)) 0
    some (if signed.1 then -(magnitude : Int) else (magnitude : Int))

set_option linter.unusedVariables false in
/-- chat.service.ts 826-852 (getExtractedContentByRawRefId): the query builder
    joins the owning session (scoping to session and user) and filters and selects
    `extractedContent.rawRefId` — a property that exists on no entity (part_015
    defines no such column) and that saveExtractedContent never writes. The call
    therefore never produces a row: it fails for every reference number, with an
    error the citation loop catches. -/
def getExtractedContentByRawRefId (sessionPassages : List ExtractedContentRecord)
    (rawRefId : Int) : Except String ExtractedContentRecord :=
  .error "rawRefId is not a column of the extracted_contents entity"

/-- A citation embedded in a persisted assistant message (FileCitation of the
    chat-message entity). -/
structure FileCitation where
  id : String
  text : String
deriving DecidableEq, Repr

/-- chat.service.ts 530-550: the citation ids collected from the match list. Each
    full match is re-matched case-insensitively (533, modelled by innerRefBody); a
    match whose inner group is empty is skipped (the falsy check on contentMatch[1]
    at 534), the group is trimmed and given to JSON.parse — an external library
    call, passed in as the parse parameter returning the parsed object's id, `none`
    when parsing throws — and a parse failure is caught and skipped (546-549). -/
def extractCitationIds (parse : String → Option String) (streamedContent : String) :
    List String :=
  (refMatchBodies streamedContent.data).filterMap (fun body =>
    let inner := innerRefBody body
    if inner.isEmpty then none else parse (String.mk (jsTrim inner)))

/-- chat.service.ts 569-607: one citation's transformation. parseInt on the id; a
    NaN drops the citation (575-578); the reference number is then looked up via
    getExtractedContentByRawRefId, whose failure — on this program, every call
    fails, since no rawRefId column exists — is caught at 594-605 and drops the
    citation; a resolved citation would keep the original id string and display
    the file name. -/
def transformCitation (sessionPassages : List ExtractedContentRecord)
    (citationId : String) : Option FileCitation :=
  match jsParseInt citationId with
  | none => none
  | some rawRefId =>
      match getExtractedContentByRawRefId sessionPassages rawRefId with
      | .ok record => some { id := citationId, text := record.fileName }
      | .error _ => none

/-- chat.service.ts 609-611: the final citation list stored on the assistant
    message — the transformed citations with the dropped ones filtered out. -/
def finalCitations (parse : String → Option String)
    (sessionPassages : List ExtractedContentRecord) (streamedContent : String) :
    List FileCitation :=
  (extractCitationIds parse streamedContent).filterMap
    (transformCitation sessionPassages)

def lbrace : Char := Char.ofNat 123

def rbrace : Char := Char.ofNat 125

/-- Drop `lit` from the front of `s`, or fail. -/
def dropLit (lit : List Char) (s : List Char) : Option (List Char) :=
  if lit.isPrefixOf s then some (s.drop lit.length) else none

/-- Model of JSON.parse followed by reading the `id` property, on the flat object
    form the generation prompt mandates (part_006 328-344): an object whose first
    member is "id" with a string value. Returns the id value; any other input is a
    parse failure. The general C5 theorems hold for every parse function; this
    concrete instance drives the counterexample and the witness. -/
def parseIdObject (s : String) : Option String :=
  match jsTrim s.data with
  | [] => none
  | c :: rest =>
      if c = lbrace then
        match dropLit "\"id\"".data (rest.dropWhile Char.isWhitespace) with
        | none => none
        | some r2 =>
            match r2.dropWhile Char.isWhitespace with
            | ':' :: r4 =>
                match r4.dropWhile Char.isWhitespace with
                | '"' :: r6 =>
                    let value := r6.takeWhile (fun ch => ch != '"')
                    match r6.drop value.length with
                    | '"' :: r7 =>
                        if r7.dropWhile Char.isWhitespace = [rbrace] then
                          some (String.mk value)
                        else none
                    | _ => none
                | _ => none
            | _ => none
      else none

/-- A concrete accumulated answer that cites passage 1 twice. -/
def dupRefAnswer : String :=
  "First claim. [REF] \x7b\"id\": \"1\"\x7d [/REF] Second claim. [REF] \x7b\"id\": \"1\"\x7d [/REF]"

/-- A concrete accumulated answer ending in an unbalanced opening tag. -/
def unbalancedAnswer : String :=
  "A claim. [REF] \x7b\"id\": \"1\"\x7d"

/-- One raw hit of the vector-search service (part_006 502-571), for C6. -/
structure SearchHit where
  chunk_text : String
  fileId : String
  name : String
deriving DecidableEq, Repr

/-- Promise.all: resolves with every result when every promise resolves, and
    rejects with a failure as soon as any promise rejects, discarding the other
    promises' results. -/
def promiseAll {α : Type} (calls : List (Except String α)) : Except String (List α) :=
  match calls with
  | [] => .ok []
  | c :: rest =>
      match c with
      | .error e => .error e
      | .ok v =>
          match promiseAll rest with
          | .error e => .error e
          | .ok vs => .ok (v :: vs)

/-- chat.service.ts 287-313: the retrieval fan-out of sendMessage — `await
    Promise.all(allSearchPromises)` over every document's search calls, with no
    surrounding try/catch (the only try/catch of sendMessage, lines 146-193, ends
    before the retrieval phase) — so a single rejected search rejects the whole
    batch and the error propagates out of the generator, aborting the turn before
    any passage is produced. -/
def sendMessageRetrieval (searchCalls : List (Except String (List SearchHit))) :
    Except String (List SearchHit) :=
  match promiseAll searchCalls with
  | .error e => .error e
  | .ok results => .ok results.flatten

/-- part_006 1261-1427 (processQuestionsForQuery): the same fan-out wrapped in
    try/catch — any failure degrades to an empty result list for that document
    (lines 1421-1426). sendMessage does not call this routine. -/
def processQuestionsForQuery (searchCalls : List (Except String (List SearchHit))) :
    List SearchHit :=
  match promiseAll searchCalls with
  | .error _ => []
  | .ok results => results.flatten

/-- chat.service.ts 647-648 (for C8): the summary decision for a turn, as a function
    of the message count right after the turn's user message was persisted. -/
def shouldGenerateSummary (messagesLen : Nat) : Bool :=
  let totalMessages := messagesLen - 1
  decide (4 ≤ totalMessages) &&
    (totalMessages % 5 == 0 || (totalMessages + 1) % 5 == 0)

/-- Number of assistant messages carrying a conversation summary after k completed
    exchanges of an initially empty session, assuming every exchange completes and
    summary generation succeeds: at exchange j (0-based) the session holds 2*j
    messages before the turn, so the decision sees 2*j + 1 messages. -/
def summariesAfterExchanges (exchanges : Nat) : Nat :=
  ((List.range exchanges).filter (fun j => shouldGenerateSummary (2 * j + 1))).length

/-- chat.service.ts 950: the summary count checkConversationIntegrity expects for a
    session with the given number of persisted messages. -/
def expectedSummaries (totalMessages : Nat) : Nat :=
  totalMessages / 5

/- =============================  THEOREMS  ================================ -/

theorem assignRawRefIds_counter (n : Nat) (rs : List String) :
    (assignRawRefIds n rs).2 = n + rs.length := by
  induction rs generalizing n with
  | nil => simp [assignRawRefIds]
  | cons r rest ih =>
      simp only [assignRawRefIds, List.length_cons]
      rw [ih]
      omega

theorem assignRawRefIds_mem_bounds (n : Nat) (rs : List String) :
    ∀ x ∈ (assignRawRefIds n rs).1.map Prod.fst, n < x ∧ x ≤ n + rs.length := by
  induction rs generalizing n with
  | nil => simp [assignRawRefIds]
  | cons r rest ih =>
      intro x hx
      simp only [assignRawRefIds, List.map_cons, List.mem_cons] at hx
      rcases hx with h | h
      · subst h
        simp [Nat.lt_succ_self]
      · have := ih (n + 1) x h
        constructor
        · omega
        · simpa [List.length_cons] using by omega

theorem assignRawRefIds_sorted (n : Nat) (rs : List String) :
    ((assignRawRefIds n rs).1.map Prod.fst).Pairwise (· < ·) := by
  induction rs generalizing n with
  | nil => simp [assignRawRefIds]
  | cons r rest ih =>
      simp only [assignRawRefIds, List.map_cons]
      refine List.pairwise_cons.mpr ⟨?_, ih (n + 1)⟩
      intro b hb
      exact (assignRawRefIds_mem_bounds (n + 1) rest b hb).1

theorem sessionRawRefIds_mem_gt (n : Nat) (ts : List (List String)) :
    ∀ x ∈ sessionRawRefIds n ts, n < x := by
  induction ts generalizing n with
  | nil => simp [sessionRawRefIds]
  | cons t ts ih =>
      intro x hx
      simp only [sessionRawRefIds, List.mem_append] at hx
      rcases hx with h | h
      · exact (assignRawRefIds_mem_bounds n t x h).1
      · have hc : (assignRawRefIds n t).2 = n + t.length := assignRawRefIds_counter n t
        have := ih (assignRawRefIds n t).2 x h
        omega

/-- C1: for every conversation session, the reference numbers assigned to extracted
    passages (`rawRefId`, derived from the session's `numRawReferences` counter) are
    strictly increasing over the session's lifetime and are never assigned to two
    different passages; the id assignment of one turn is the single sequential map of
    chat.service.ts 364-373, executed after all of the turn's concurrent retrieval
    batches have been awaited, so two batches of the same turn can never receive a
    duplicate number. -/
theorem c1_rawRefIds_strictly_increasing (numRawReferences : Nat)
    (turns : List (List String)) :
    (sessionRawRefIds numRawReferences turns).Pairwise (· < ·) ∧
    (sessionRawRefIds numRawReferences turns).Nodup := by
  have hsorted : ∀ (n : Nat) (ts : List (List String)),
      (sessionRawRefIds n ts).Pairwise (· < ·) := by
    intro n ts
    induction ts generalizing n with
    | nil => simp [sessionRawRefIds]
    | cons t ts ih =>
        simp only [sessionRawRefIds]
        rw [List.pairwise_append]
        refine ⟨assignRawRefIds_sorted n t, ih _, ?_⟩
        intro a ha b hb
        have hca : a ≤ n + t.length := (assignRawRefIds_mem_bounds n t a ha).2
        have hcounter : (assignRawRefIds n t).2 = n + t.length := assignRawRefIds_counter n t
        have hcb : (assignRawRefIds n t).2 < b := sessionRawRefIds_mem_gt _ ts b hb
        omega
  refine ⟨hsorted _ _, ?_⟩
  exact (hsorted numRawReferences turns).imp (fun h => ne_of_lt h)

/-- C7: for every input query, the query planner never throws to its caller (it is a
    total function of the classification outcome) and never returns both output
    lists empty; a failed or structurally invalid classification, and a
    decomposition empty on both sides, all yield the original query as the single
    generic entry with an empty specific list. -/
theorem c7_categorizer_fail_open (query : String) (outcome : ClassifyOutcome) :
    (¬ ((userQueryCategorizer query outcome).specific = [] ∧
        (userQueryCategorizer query outcome).generic = [])) ∧
    (outcome = .failure → userQueryCategorizer query outcome = ⟨[], [query]⟩) ∧
    (∀ g, outcome = .parsed none g → userQueryCategorizer query outcome = ⟨[], [query]⟩) ∧
    (∀ s, outcome = .parsed (some s) none →
        userQueryCategorizer query outcome = ⟨[], [query]⟩) ∧
    (∀ s g, outcome = .parsed (some s) (some g) → s = [] → g = [] →
        userQueryCategorizer query outcome = ⟨[], [query]⟩) := by
  refine ⟨?_, ?_, ?_, ?_, ?_⟩
  · cases outcome with
    | failure => simp [userQueryCategorizer]
    | parsed s g =>
        cases s with
        | none => simp [userQueryCategorizer]
        | some s =>
            cases g with
            | none => simp [userQueryCategorizer]
            | some g =>
                by_cases hs : s.isEmpty
                · by_cases hg : g.isEmpty
                  · simp [userQueryCategorizer, hs, hg]
                  · simp only [userQueryCategorizer, hs, hg, Bool.and_false, if_neg]
                    intro h
                    exact hg (by simpa [List.isEmpty_iff] using h.2)
                · simp only [userQueryCategorizer, hs, Bool.false_and, if_neg]
                  intro h
                  exact hs (by simpa [List.isEmpty_iff] using h.1)
  · rintro rfl; rfl
  · rintro g rfl; rfl
  · rintro s rfl; rfl
  · rintro s g rfl rfl rfl; rfl

/-- C7 witness: the fallback at a concrete failed classification of the query
    "what is the sample size?". -/
theorem c7_categorizer_fail_open_witness :
    userQueryCategorizer "what is the sample size?" .failure =
      ⟨[], ["what is the sample size?"]⟩ :=
  (c7_categorizer_fail_open "what is the sample size?" .failure).2.1 rfl

theorem jsSetDedupAux_mem (l : List String) :
    ∀ seen x, x ∈ jsSetDedupAux seen l ↔ x ∈ l ∧ x ∉ seen := by
  induction l with
  | nil => intro seen x; simp [jsSetDedupAux]
  | cons a t ih =>
      intro seen x
      by_cases ha : a ∈ seen
      · simp only [jsSetDedupAux, if_pos ha, ih, List.mem_cons]
        constructor
        · rintro ⟨h, hn⟩; exact ⟨Or.inr h, hn⟩
        · rintro ⟨h | h, hn⟩
          · subst h; exact absurd ha hn
          · exact ⟨h, hn⟩
      · simp only [jsSetDedupAux, if_neg ha, List.mem_cons, ih]
        constructor
        · rintro (rfl | ⟨h, hn⟩)
          · exact ⟨Or.inl rfl, ha⟩
          · exact ⟨Or.inr h, fun hx => hn (Or.inr hx)⟩
        · rintro ⟨h | h, hn⟩
          · subst h; exact Or.inl rfl
          · by_cases hxa : x = a
            · exact Or.inl hxa
            · refine Or.inr ⟨h, ?_⟩
              rintro (h1 | h2)
              · exact hxa h1
              · exact hn h2

theorem jsSetDedupAux_nodup (l : List String) :
    ∀ seen, (jsSetDedupAux seen l).Nodup := by
  induction l with
  | nil => intro seen; simp [jsSetDedupAux]
  | cons a t ih =>
      intro seen
      by_cases ha : a ∈ seen
      · simpa [jsSetDedupAux, if_pos ha] using ih seen
      · simp only [jsSetDedupAux, if_neg ha, List.nodup_cons]
        refine ⟨?_, ih (a :: seen)⟩
        intro hmem
        exact ((jsSetDedupAux_mem t (a :: seen) a).mp hmem).2 (List.mem_cons_self a seen)

theorem jsSetDedup_mem (l : List String) (x : String) :
    x ∈ jsSetDedup l ↔ x ∈ l := by
  simp [jsSetDedup, jsSetDedupAux_mem]

/-- C10: for every successful sendMessage call, the stored contextFileIds after the
    call is the deduplicated union of the previously stored ids and the request's
    fileIds; in particular it is duplicate-free and a superset of both, so a
    document id, once in a session's active context, is never removed by any
    message exchange. -/
theorem c10_contextFileIds_union (stored requested : List String) :
    updateContextFileIds stored requested = jsSetDedup (stored ++ requested) ∧
    (updateContextFileIds stored requested).Nodup ∧
    (∀ x, x ∈ updateContextFileIds stored requested ↔ x ∈ stored ∨ x ∈ requested) := by
  have hmain : updateContextFileIds stored requested = jsSetDedup (stored ++ requested) := by
    unfold updateContextFileIds
    by_cases h : (jsSetDedup (stored ++ requested)).length > 0
    · simp [h]
    · have hempty : jsSetDedup (stored ++ requested) = [] :=
        List.eq_nil_of_length_eq_zero (by omega)
      have hnil : stored ++ requested = [] := by
        by_contra hne
        rcases List.exists_mem_of_ne_nil _ hne with ⟨y, hy⟩
        have : y ∈ jsSetDedup (stored ++ requested) := (jsSetDedup_mem _ y).mpr hy
        simp [hempty] at this
      have hstored : stored = [] := (List.append_eq_nil.mp hnil).1
      simp [h, hstored, hempty]
  refine ⟨hmain, ?_, ?_⟩
  · rw [hmain]; exact jsSetDedupAux_nodup _ []
  · intro x
    rw [hmain, jsSetDedup_mem, List.mem_append]

/-- C10 witness: merging a concrete request id list into a concrete stored list. -/
theorem c10_contextFileIds_union_witness :
    updateContextFileIds ["f1", "f2"] ["f2", "f3"] = jsSetDedup (["f1", "f2"] ++ ["f2", "f3"]) :=
  (c10_contextFileIds_union ["f1", "f2"] ["f2", "f3"]).1

/-- C2: for every sendMessage turn with a subscription-usage row, the assistant
    message and the usage counter are updated atomically: on commit both take
    effect, and on transaction failure the usage counter is unchanged by the turn
    while the user message persisted earlier remains as an orphan that the
    integrity scan detects (it is the trailing user message of the session). -/
theorem c2_assistant_and_usage_atomic (userMessage aiMessage : ChatMsg)
    (st : ConversationState) (hUser : userMessage.role = .user) :
    (sendMessagePersistence true true userMessage aiMessage st).messages =
        st.messages ++ [userMessage, aiMessage] ∧
    (sendMessagePersistence true true userMessage aiMessage st).usage.messagesUsed =
        st.usage.messagesUsed + 1 ∧
    (sendMessagePersistence false true userMessage aiMessage st).usage = st.usage ∧
    (sendMessagePersistence false true userMessage aiMessage st).messages =
        st.messages ++ [userMessage] ∧
    userMessage ∈ orphanedMessages
        (sendMessagePersistence false true userMessage aiMessage st).messages := by
  refine ⟨?_, ?_, ?_, ?_, ?_⟩
  · simp [sendMessagePersistence, assistantMessageTransaction]
  · simp [sendMessagePersistence, assistantMessageTransaction, increaseMessageUsage]
  · simp [sendMessagePersistence, assistantMessageTransaction]
  · simp [sendMessagePersistence, assistantMessageTransaction]
  · have hmsgs : (sendMessagePersistence false true userMessage aiMessage st).messages =
        st.messages ++ [userMessage] := by
      simp [sendMessagePersistence, assistantMessageTransaction]
    rw [hmsgs]
    unfold orphanedMessages trailingOrphans
    rw [List.getLast?_concat]
    simp [hUser]

/-- C2 witness: the atomicity conjunction at a concrete turn starting from an empty
    session and a counter at 7. -/
theorem c2_assistant_and_usage_atomic_witness :
    (sendMessagePersistence false true
        ⟨"u1", .user, "hi", "", 1000, []⟩ ⟨"a1", .assistant, "hello", "", 2000, []⟩
        ⟨[], ⟨7⟩⟩).usage = ⟨7⟩ :=
  (c2_assistant_and_usage_atomic
      ⟨"u1", .user, "hi", "", 1000, []⟩ ⟨"a1", .assistant, "hello", "", 2000, []⟩
      ⟨[], ⟨7⟩⟩ rfl).2.2.1

theorem consecutiveOrphans_eq_nil (messages : List ChatMsg)
    (halt : messages.Chain' (fun a b => a.role ≠ b.role)) :
    consecutiveOrphans messages = [] := by
  induction messages with
  | nil => rfl
  | cons m1 rest ih =>
      cases rest with
      | nil => rfl
      | cons m2 rest2 =>
          rw [List.chain'_cons] at halt
          have h1 : ¬ (m1.role = m2.role ∧ m1.role = .user) := fun h => halt.1 h.1
          simp only [consecutiveOrphans, if_neg h1, List.nil_append]
          exact ih halt.2

/-- C9: for every session whose ordered message list has no two adjacent messages of
    the same role and ends with a user-role message, the integrity check flags
    exactly that one message as orphaned, and recovery appends exactly one new
    assistant message dated 1000 ms after the orphan — strictly later than it —
    while every previously persisted message (the orphan included, with its id,
    role, content and extracted passages) is left in place unmodified. -/
theorem c9_orphan_recovery (messages : List ChatMsg) (orphan : ChatMsg)
    (generatedResponse newId : String)
    (hlast : messages.getLast? = some orphan)
    (hrole : orphan.role = .user)
    (halt : messages.Chain' (fun a b => a.role ≠ b.role)) :
    orphanedMessages messages = [orphan] ∧
    recoverConversationIntegrity generatedResponse newId messages =
      messages ++ [recoveryMessageFor generatedResponse newId orphan] ∧
    (recoveryMessageFor generatedResponse newId orphan).created_at =
      orphan.created_at + 1000 ∧
    orphan.created_at < (recoveryMessageFor generatedResponse newId orphan).created_at ∧
    (recoveryMessageFor generatedResponse newId orphan).role = .assistant ∧
    (recoverConversationIntegrity generatedResponse newId messages).take
        messages.length = messages := by
  have horph : orphanedMessages messages = [orphan] := by
    unfold orphanedMessages trailingOrphans
    rw [consecutiveOrphans_eq_nil messages halt, hlast]
    simp [hrole]
  refine ⟨horph, ?_, rfl, by simp only [recoveryMessageFor]; omega, rfl, ?_⟩
  · unfold recoverConversationIntegrity
    rw [horph]
    rfl
  · unfold recoverConversationIntegrity
    exact List.take_left messages _

/-- C9 witness: recovery of a concrete three-message session u0, a0, u1 whose last
    message is an unanswered user turn. -/
theorem c9_orphan_recovery_witness :
    orphanedMessages
        [⟨"u0", .user, "q0", "", 1000, []⟩,
         ⟨"a0", .assistant, "r0", "", 2000, []⟩,
         ⟨"u1", .user, "q1", "", 3000, []⟩] =
      [⟨"u1", .user, "q1", "", 3000, []⟩] :=
  (c9_orphan_recovery
      [⟨"u0", .user, "q0", "", 1000, []⟩,
       ⟨"a0", .assistant, "r0", "", 2000, []⟩,
       ⟨"u1", .user, "q1", "", 3000, []⟩]
      ⟨"u1", .user, "q1", "", 3000, []⟩ "recovered" "rec1"
      (by rfl) rfl (by simp [List.chain'_cons])).1

theorem streamingLoop_spec (chunks : List String) :
    ∀ acc idx,
      (streamingLoop acc idx chunks).2 = acc ++ concatChunks chunks ∧
      forwardedChunks (streamingLoop acc idx chunks).1 = chunks ∧
      (∀ e ∈ (streamingLoop acc idx chunks).1, isChunkEvent e = true) := by
  induction chunks with
  | nil =>
      intro acc idx
      refine ⟨?_, rfl, by simp [streamingLoop]⟩
      simp [streamingLoop, concatChunks]
  | cons c rest ih =>
      intro acc idx
      obtain ⟨h1, h2, h3⟩ := ih (acc ++ c) (idx + 1)
      refine ⟨?_, ?_, ?_⟩
      · simp only [streamingLoop]
        rw [h1, concatChunks, String.append_assoc]
      · simp only [streamingLoop, forwardedChunks, List.filterMap_cons] at h2 ⊢
        rw [h2]
      · intro e he
        simp only [streamingLoop, List.mem_cons] at he
        rcases he with rfl | rfl | he
        · rfl
        · rfl
        · exact h3 e he

/-- C3: for every sendMessage turn that reaches the generation stage, the user
    message is persisted and its id emitted as the [USER_MESSAGE_ID] control
    fragment — in that order, as the first two events of the turn — strictly before
    any chunk of the generated answer is requested from the generation service or
    forwarded to the caller: every chunk event sits at trace position 2 or later. -/
theorem c3_user_message_persisted_first (userMessageId aiMessageId : String)
    (chunks : List String) :
    (sendMessageEvents userMessageId aiMessageId chunks).take 2 =
      [.persistedUserMessage userMessageId, .userMessageIdFragment userMessageId] ∧
    (∀ (i : Nat) (h : i < (sendMessageEvents userMessageId aiMessageId chunks).length),
        isChunkEvent ((sendMessageEvents userMessageId aiMessageId chunks).get ⟨i, h⟩) =
          true → 2 ≤ i) := by
  constructor
  · rfl
  · intro i h hchunk
    match i with
    | 0 => simp [sendMessageEvents, isChunkEvent] at hchunk
    | 1 => simp [sendMessageEvents, isChunkEvent] at hchunk
    | (n + 2) => omega

/-- C3 witness: the ordering at a concrete turn with two answer chunks. -/
theorem c3_user_message_persisted_first_witness :
    (sendMessageEvents "u1" "a1" ["Hello", " world"]).take 2 =
      [.persistedUserMessage "u1", .userMessageIdFragment "u1"] :=
  (c3_user_message_persisted_first "u1" "a1" ["Hello", " world"]).1

/-- C4: for every completed sendMessage turn, the trace decomposes as the user
    persistence and [USER_MESSAGE_ID] fragment, a middle segment of generation
    events only, and finally the assistant persistence and [AI_MESSAGE_ID]
    fragment; the chunks forwarded in the middle segment are exactly the chunks the
    generation service emitted, in order, with none reordered, dropped, merged or
    added, and the persisted assistant content is their concatenation — the full
    accumulator at the end of streaming. -/
theorem c4_assistant_content_is_forwarded_chunks (userMessageId aiMessageId : String)
    (chunks : List String) :
    ∃ middle,
      sendMessageEvents userMessageId aiMessageId chunks =
        [.persistedUserMessage userMessageId, .userMessageIdFragment userMessageId] ++
          middle ++
          [.persistedAssistantMessage (concatChunks chunks),
           .aiMessageIdFragment aiMessageId] ∧
      forwardedChunks middle = chunks ∧
      (∀ e ∈ middle, isChunkEvent e = true) := by
  obtain ⟨h1, h2, h3⟩ := streamingLoop_spec chunks "" 0
  refine ⟨(streamingLoop "" 0 chunks).1, ?_, h2, h3⟩
  simp only [sendMessageEvents]
  rw [show (streamingLoop "" 0 chunks).2 = "" ++ concatChunks chunks from h1]
  simp

/-- C4 witness: a concrete two-chunk turn, whose persisted assistant content is the
    concatenation of the two forwarded chunks. -/
theorem c4_assistant_content_is_forwarded_chunks_witness :
    ∃ middle,
      sendMessageEvents "u1" "a1" ["Hello", " world"] =
        [.persistedUserMessage "u1", .userMessageIdFragment "u1"] ++ middle ++
          [.persistedAssistantMessage (concatChunks ["Hello", " world"]),
           .aiMessageIdFragment "a1"] ∧
      forwardedChunks middle = ["Hello", " world"] ∧
      (∀ e ∈ middle, isChunkEvent e = true) :=
  c4_assistant_content_is_forwarded_chunks "u1" "a1" ["Hello", " world"]

theorem splitAtTag_some_decomp (tag : List Char) :
    ∀ s before after, splitAtTag tag s = some (before, after) →
      s = before ++ tag ++ after := by
  intro s
  induction s with
  | nil =>
      intro before after h
      by_cases htag : tag.isPrefixOf ([] : List Char)
      · have : tag = [] := by
          cases tag with
          | nil => rfl
          | cons c cs => simp [List.isPrefixOf] at htag
        simp only [splitAtTag, if_pos htag] at h
        cases h
        simp [this]
      · simp [splitAtTag, htag] at h
  | cons c rest ih =>
      intro before after h
      by_cases htag : tag.isPrefixOf (c :: rest)
      · simp only [splitAtTag, if_pos htag] at h
        obtain ⟨u, hu⟩ := List.isPrefixOf_iff_prefix.mp htag
        cases h
        rw [List.nil_append, ← hu, List.drop_left]
      · simp only [splitAtTag, if_neg htag, Option.map_eq_some'] at h
        obtain ⟨p, hp, heq⟩ := h
        cases heq
        have := ih p.1 p.2 (by rw [hp])
        simp [this]

theorem splitAtTag_none_not_infix (tag : List Char) :
    ∀ s, splitAtTag tag s = none → ¬ (tag <:+: s) := by
  intro s
  induction s with
  | nil =>
      intro h hinf
      have : tag = [] := List.eq_nil_of_infix_nil hinf
      subst this
      simp [splitAtTag, List.isPrefixOf] at h
  | cons c rest ih =>
      intro h hinf
      by_cases htag : tag.isPrefixOf (c :: rest)
      · simp [splitAtTag, htag] at h
      · simp only [splitAtTag, if_neg htag, Option.map_eq_none'] at h
        rcases List.infix_cons_iff.mp hinf with hpre | hinf2
        · exact htag (List.isPrefixOf_iff_prefix.mpr hpre)
        · exact ih h hinf2

/-- An answer whose text contains no closing [/REF] tag — in particular one that
    ends in an unbalanced opening [REF] tag — produces no match bodies at all. -/
theorem refMatchBodiesFuel_nil_of_no_close :
    ∀ fuel s, splitAtTag refCloseTag s = none → refMatchBodiesFuel fuel s = [] := by
  intro fuel
  cases fuel with
  | zero => intro s _; rfl
  | succ f =>
      intro s hclose
      simp only [refMatchBodiesFuel]
      cases hopen : splitAtTag refOpenTag s with
      | none => simp
      | some p =>
          obtain ⟨beforeOpen, afterOpen⟩ := p
          have hdecomp : s = beforeOpen ++ refOpenTag ++ afterOpen :=
            splitAtTag_some_decomp refOpenTag s beforeOpen afterOpen hopen
          have hclose2 : splitAtTag refCloseTag afterOpen = none := by
            cases hc2 : splitAtTag refCloseTag afterOpen with
            | none => rfl
            | some q =>
                exfalso
                have hinf : refCloseTag <:+: afterOpen := by
                  have := splitAtTag_some_decomp refCloseTag afterOpen q.1 q.2
                    (by rw [hc2])
                  exact ⟨q.1, q.2, by rw [← this]⟩
                have hsuffix : afterOpen <:+ s := ⟨beforeOpen ++ refOpenTag, by
                  rw [hdecomp, List.append_assoc]⟩
                exact splitAtTag_none_not_infix refCloseTag s hclose
                  (hinf.trans hsuffix.isInfix)
          simp [hclose2]

/-- C5 amended: for every accumulated answer text, every parse function and every
    session passage set, citation extraction is a total function (errors at each
    stage are caught, so it never raises) that (a) collects zero citation ids when
    the text has no closing [/REF] tag — an unbalanced opening tag yields nothing —
    and (b), because the reference number stamped on extracted passages is
    discarded by saveExtractedContent before persistence and the resolution query
    of getExtractedContentByRawRefId filters on a rawRefId column that exists on no
    entity, every collected citation — valid JSON or not, numeric id or not,
    duplicate or not — fails resolution and is dropped, so the persisted citation
    list is always empty. -/
theorem c5_citation_extraction_amended (parse : String → Option String)
    (sessionPassages : List ExtractedContentRecord) (streamedContent : String) :
    (splitAtTag refCloseTag streamedContent.data = none →
        extractCitationIds parse streamedContent = []) ∧
    (∀ citationId, transformCitation sessionPassages citationId = none) ∧
    finalCitations parse sessionPassages streamedContent = [] := by
  have htrans : ∀ citationId, transformCitation sessionPassages citationId = none := by
    intro citationId
    unfold transformCitation
    cases hp : jsParseInt citationId with
    | none => rfl
    | some n => simp [getExtractedContentByRawRefId]
  refine ⟨?_, htrans, ?_⟩
  · intro hclose
    unfold extractCitationIds refMatchBodies
    rw [refMatchBodiesFuel_nil_of_no_close _ _ hclose]
    rfl
  · unfold finalCitations
    exact List.filterMap_eq_nil_iff.mpr (fun cid _ => htrans cid)

/-- C5 amended witness: at the concrete unbalanced answer no citation id is
    collected, and at the concrete duplicate-citation answer the passage store
    persisted from a passage stamped with number 1 still resolves nothing, so the
    persisted citation list is empty. -/
theorem c5_citation_extraction_amended_witness :
    extractCitationIds parseIdObject unbalancedAnswer = [] ∧
    finalCitations parseIdObject
      (saveExtractedContent [(1, ⟨"file-1", "paper.pdf", "snippet"⟩)]) dupRefAnswer = [] :=
  ⟨(c5_citation_extraction_amended parseIdObject [] unbalancedAnswer).1 (by decide),
   (c5_citation_extraction_amended parseIdObject
      (saveExtractedContent [(1, ⟨"file-1", "paper.pdf", "snippet"⟩)]) dupRefAnswer).2.2⟩

/-- C5 counterexample: the claim asserts that duplicate reference identifiers
    collapse to a single Citation in the persisted assistant message. On the code,
    for the concrete accumulated answer below — whose two well-formed [REF] markers
    both carry id "1", duplicates of the number stamped on the session's one
    extracted passage — the collected citation ids are indeed ["1", "1"], but the
    persisted citation list is empty rather than the single collapsed Citation the
    claim states: the stamped number was discarded at persistence and resolution
    always fails. -/
theorem c5_duplicate_citations_not_collapsed :
    extractCitationIds parseIdObject dupRefAnswer = ["1", "1"] ∧
    finalCitations parseIdObject
        (saveExtractedContent [(1, ⟨"file-1", "paper.pdf", "snippet"⟩)]) dupRefAnswer = [] ∧
    (finalCitations parseIdObject
        (saveExtractedContent [(1, ⟨"file-1", "paper.pdf", "snippet"⟩)])
        dupRefAnswer).length ≠ 1 := by
  refine ⟨rfl, rfl, by decide⟩

/-- C6: the claim says a failed semantic-search call for one document must not
    abort retrieval for the other documents of the turn. On the code the opposite
    holds for sendMessage: with two active documents where the first document's
    search rejects and the second document's search succeeds, the whole retrieval
    batch rejects and the turn aborts with that error, while the successful
    document's hits are discarded; only the unused helper processQuestionsForQuery
    degrades the same failure to "no passages". -/
theorem c6_search_failure_aborts_turn :
    sendMessageRetrieval
        [.error "semantic search failed for document 1",
         .ok [⟨"chunk from document 2", "doc-2", "second.pdf"⟩]] =
      .error "semantic search failed for document 1" ∧
    processQuestionsForQuery [.error "semantic search failed for document 1"] = [] ∧
    processQuestionsForQuery [.ok [⟨"chunk from document 2", "doc-2", "second.pdf"⟩]] =
      [⟨"chunk from document 2", "doc-2", "second.pdf"⟩] := by
  refine ⟨rfl, rfl, rfl⟩

/-- C8: the claim says a session with n persisted messages carries exactly
    floor(n / 5) conversation summaries — the count the integrity check expects.
    The generation cadence of the code disagrees with the code's own integrity
    check: after 5 completed exchanges (10 persisted messages) the cadence has
    produced exactly 1 summary (at the third exchange, when the decision saw
    5 messages), while checkConversationIntegrity expects floor(10 / 5) = 2 and
    reports a summary-count mismatch. -/
theorem c8_summary_cadence_mismatch :
    summariesAfterExchanges 5 = 1 ∧
    expectedSummaries 10 = 2 ∧
    summariesAfterExchanges 5 ≠ expectedSummaries (2 * 5) := by
  refine ⟨by decide, by decide, by decide⟩

end Pdfizz
